import Mathlib

set_option autoImplicit false

/-!
Shallow embedding of the shape-propagation and graph-lowering core of the
nnssa CoreML converter (shapes.py and ssa_converter.py).  Shape vectors are
lists of integers, with -1 the unknown-dimension sentinel.  Python
exceptions are modelled with Option / Except; Python dictionaries are
modelled as association lists with insert-or-overwrite assignment.
-/

/-- Association-list read, modelling a Python dictionary lookup. -/
def dict_get {α : Type} : List (String × α) → String → Option α
  | [], _ => none
  | (k, v) :: rest, key => if k = key then some v else dict_get rest key

/-- Association-list write, modelling a Python dictionary assignment:
an existing key keeps its position and gets the new value, a new key is
appended at the end. -/
def dict_set {α : Type} : List (String × α) → String → α → List (String × α)
  | [], key, val => [(key, val)]
  | (k, v) :: rest, key, val =>
    if k = key then (key, val) :: rest else (k, v) :: dict_set rest key val

/-- Key-membership test, modelling the Python `in` operator on a dict. -/
def dict_contains {α : Type} (m : List (String × α)) (key : String) : Bool :=
  (dict_get m key).isSome

theorem dict_get_set_self {α : Type} (m : List (String × α)) (key : String) (val : α) :
    dict_get (dict_set m key val) key = some val := by
  induction m with
  | nil => simp [dict_set, dict_get]
  | cons p rest ih =>
    obtain ⟨k, v⟩ := p
    by_cases h : k = key
    · simp [dict_set, dict_get, h]
    · simp [dict_set, dict_get, h, ih]

/-- Embedding of broadcast_dim, the inner helper of _add_broadcastable in
shapes.py: combines one aligned dimension pair; none models the
irreconcilable case that makes the enclosing function raise ValueError. -/
def broadcast_dim (x y : Int) : Option Int :=
  if x < 0 ∨ y < 0 then some (-1)
  else if x = 1 ∨ y = 1 then some (max x y)
  else if x = y then some x
  else none

/-- Embedding of _add_broadcastable in shapes.py, the shape rule registered
for addBroadcastable, subtractBroadcastable and multiplyBroadcastable:
right-align the input shapes by left-padding with 1 up to the largest rank,
then fold broadcast_dim over every aligned column starting from 1.  none
models the raised ValueError; an empty input list, on which the Python
max([]) raises, is also none. -/
def add_broadcastable (input_shapes : List (List Int)) : Option (List Int) :=
  match input_shapes with
  | [] => none
  | _ =>
    let max_rank := (input_shapes.map List.length).foldl max 0
    let extended := input_shapes.map (fun s => List.replicate (max_rank - s.length) 1 ++ s)
    (List.range max_rank).mapM
      (fun i => extended.foldlM (fun acc s => broadcast_dim acc (s.getD i 0)) 1)

/-- C1 counterexample: broadcasting [-1, 4] with [3, 4] yields [-1, 4], not
[3, 4] as the claim states - broadcast_dim returns -1 whenever either side
is negative, so a wildcard is never resolved to the concrete side. -/
theorem c1_wildcard_counterexample :
    add_broadcastable [[-1, 4], [3, 4]] = some [-1, 4]
    ∧ add_broadcastable [[-1, 4], [3, 4]] ≠ some [3, 4] := by
  decide

/-- Embedding of get_common_shape in shapes.py with the heap effect made
explicit.  The Python function writes the unified dimensions into its first
argument in place and returns that very list (z = x aliases), or returns
None leaving x untouched when the ranks differ.  The second component of
the result is the content of the x buffer after the call. -/
def get_common_shape_mut (x y : List Int) : Option (List Int) × List Int :=
  if x.length = y.length then
    let z := List.zipWith (fun a b => if a = b then a else -1) x y
    (some z, z)
  else (none, x)

/-- Return value of get_common_shape as a pure function of the argument
values (the first component of the state-explicit embedding). -/
def get_common_shape (x y : List Int) : Option (List Int) :=
  (get_common_shape_mut x y).1

/-- C1 (amended): for the broadcastable elementwise shape rule, broadcasting
[1, 4] and [3, 1] yields [3, 4]; broadcasting [2] and [3] raises an error;
broadcasting [-1, 4] and [3, 4] yields [-1, 4] (a wildcard dimension stays
a wildcard, even when the other side is concrete); and broadcasting [-1]
and [-1] yields [-1]. -/
theorem c1_broadcast_aligned_pairs :
    add_broadcastable [[1, 4], [3, 1]] = some [3, 4]
    ∧ add_broadcastable [[2], [3]] = none
    ∧ add_broadcastable [[-1, 4], [3, 4]] = some [-1, 4]
    ∧ add_broadcastable [[-1], [-1]] = some [-1] := by
  decide

/-- C3: shape unification is commutative and idempotent as a function of its
argument values; a rank mismatch gives None, and with equal ranks each
dimension is kept where x and y agree and set to -1 where they disagree. -/
theorem c3_get_common_shape_algebra (x y : List Int) :
    get_common_shape x y = get_common_shape y x
    ∧ get_common_shape x x = some x
    ∧ get_common_shape x y =
        (if x.length = y.length then
          some (List.zipWith (fun a b => if a = b then a else -1) x y)
        else none) := by
  refine ⟨?_, ?_, ?_⟩
  · unfold get_common_shape get_common_shape_mut
    by_cases h : x.length = y.length
    · simp only [h, if_pos rfl, if_pos h.symm]
      have hz : List.zipWith (fun a b => if a = b then a else (-1 : Int)) x y
          = List.zipWith (fun a b => if a = b then a else (-1 : Int)) y x := by
        apply List.zipWith_comm_of_comm
        intro a b
        by_cases hab : a = b
        · simp [hab]
        · have hba : ¬ b = a := fun he => hab he.symm
          simp [hab, hba]
      simp [hz]
    · have h2 : ¬ y.length = x.length := fun he => h he.symm
      simp [h, h2]
  · unfold get_common_shape get_common_shape_mut
    simp [List.zipWith_same]
  · unfold get_common_shape get_common_shape_mut
    by_cases h : x.length = y.length <;> simp [h]

/-- Embedding of the output-blob registration loop of propagate_single_layer
in shapes.py (the lines registering layer.output): a blob without a
recorded shape is inserted fresh; otherwise get_common_shape unifies the
recorded shape with the newly computed one, raising (none) on a rank
mismatch.  The caller never assigns the return value back: the table is
updated only because the Python list held in the table was mutated in
place, which this embedding expresses by writing the mutated buffer back
into the table. -/
def register_output_blob (shapes : List (String × List Int)) (blob : String)
    (new_shape : List Int) : Option (List (String × List Int)) :=
  match dict_get shapes blob with
  | none => some (dict_set shapes blob new_shape)
  | some recorded =>
    match get_common_shape_mut recorded new_shape with
    | (none, _) => none
    | (some _, mutated) => some (dict_set shapes blob mutated)

/-- C9: get_common_shape mutates its first argument in place - after the
call the x buffer holds the unified shape and the return value is exactly
that buffer - and consequently a recorded blob shape unified against a new
shape during propagation is updated in the shape table even though the
caller never assigns the returned value back. -/
theorem c9_get_common_shape_mutates_in_place (x y : List Int)
    (shapes : List (String × List Int)) (blob : String)
    (hlen : x.length = y.length) (hrec : dict_get shapes blob = some x) :
    (get_common_shape_mut x y).2 = List.zipWith (fun a b => if a = b then a else -1) x y
    ∧ (get_common_shape_mut x y).1 = some ((get_common_shape_mut x y).2)
    ∧ register_output_blob shapes blob y
        = some (dict_set shapes blob (List.zipWith (fun a b => if a = b then a else -1) x y))
    ∧ dict_get (dict_set shapes blob (List.zipWith (fun a b => if a = b then a else -1) x y)) blob
        = some (List.zipWith (fun a b => if a = b then a else -1) x y) := by
  refine ⟨?_, ?_, ?_, ?_⟩
  · simp [get_common_shape_mut, hlen]
  · simp [get_common_shape_mut, hlen]
  · simp [register_output_blob, hrec, get_common_shape_mut, hlen]
  · exact dict_get_set_self _ _ _

/-- C9 witness: the mutation theorem applied to the recorded shape [2, 3]
unified against [2, 5] in a one-entry shape table. -/
theorem c9_mutation_witness :
    (get_common_shape_mut [2, 3] [2, 5]).2
        = List.zipWith (fun a b => if a = b then a else -1) [2, 3] [2, 5]
    ∧ (get_common_shape_mut [2, 3] [2, 5]).1 = some ((get_common_shape_mut [2, 3] [2, 5]).2)
    ∧ register_output_blob [("b", [2, 3])] "b" [2, 5]
        = some (dict_set [("b", [2, 3])] "b"
            (List.zipWith (fun a b => if a = b then a else -1) [2, 3] [2, 5]))
    ∧ dict_get (dict_set [("b", [2, 3])] "b"
          (List.zipWith (fun a b => if a = b then a else -1) [2, 3] [2, 5])) "b"
        = some (List.zipWith (fun a b => if a = b then a else -1) [2, 3] [2, 5]) :=
  c9_get_common_shape_mutates_in_place [2, 3] [2, 5] [("b", [2, 3])] "b" (by decide) (by decide)

/-- Embedding of is_static_shape in shapes.py: every dimension is positive. -/
def is_static_shape (shape : List Int) : Bool :=
  shape.all (fun x => 0 < x)

/-- Embedding of is_a_shape_of in shapes.py: a None reference shape is
universally compatible; otherwise the ranks must match and every dimension
pair must be equal or have -1 on the reference side. -/
def is_a_shape_of (x : List Int) (y : Option (List Int)) : Bool :=
  match y with
  | none => true
  | some ys =>
    if x.length ≠ ys.length then false
    else (x.zip ys).all (fun a => a.1 == a.2 || a.2 == -1)

theorem zip_all_dim_iff (x y : List Int) (hlen : x.length = y.length) :
    ((x.zip y).all (fun a => a.1 == a.2 || a.2 == -1)) = true ↔
      ∀ i, i < x.length → (x.getD i 0 = y.getD i 0 ∨ y.getD i 0 = -1) := by
  induction x generalizing y with
  | nil => simp
  | cons a xs ih =>
    cases y with
    | nil => simp at hlen
    | cons b ys =>
      have hlen2 : xs.length = ys.length := by
        simpa using hlen
      simp only [List.zip_cons_cons, List.all_cons, Bool.and_eq_true, Bool.or_eq_true,
        beq_iff_eq, List.length_cons]
      rw [ih ys hlen2]
      constructor
      · rintro ⟨h1, h2⟩ i hi
        cases i with
        | zero => simpa using h1
        | succ n =>
          have := h2 n (by omega)
          simpa using this
      · intro hall
        refine ⟨by simpa using hall 0 (by omega), ?_⟩
        intro i hi
        have := hall (i + 1) (by omega)
        simpa using this

/-- C7: is_a_shape_of x (some y) is true exactly when the ranks agree and
every dimension pair is equal or has the wildcard -1 on the y side (so it
is false whenever the ranks differ), and is_a_shape_of x none is true for
every shape x. -/
theorem c7_is_a_shape_of_spec (x y : List Int) :
    is_a_shape_of x none = true
    ∧ (is_a_shape_of x (some y) = true ↔
        (x.length = y.length
          ∧ ∀ i, i < x.length → (x.getD i 0 = y.getD i 0 ∨ y.getD i 0 = -1))) := by
  refine ⟨rfl, ?_⟩
  unfold is_a_shape_of
  by_cases h : x.length = y.length
  · simp only [h, ne_eq, not_true_eq_false, if_false, true_and]
    rw [← h]
    exact zip_all_dim_iff x y h
  · simp [h]

instance exceptDecEq {ε α : Type} [DecidableEq ε] [DecidableEq α] : DecidableEq (Except ε α) :=
  fun x y =>
    match x, y with
    | Except.ok a, Except.ok b =>
      if h : a = b then Decidable.isTrue (by rw [h])
      else Decidable.isFalse (by intro he; cases he; exact h rfl)
    | Except.error a, Except.error b =>
      if h : a = b then Decidable.isTrue (by rw [h])
      else Decidable.isFalse (by intro he; cases he; exact h rfl)
    | Except.ok _, Except.error _ => Decidable.isFalse (by intro he; cases he)
    | Except.error _, Except.ok _ => Decidable.isFalse (by intro he; cases he)

/-- Embedding of the merge-mode tensor check of _finalize_spec in shapes.py:
for one layer, each pair of an already-present tensor shape annotation and
the freshly propagated shape is accepted when is_a_shape_of holds in either
direction, and the first pair failing in both directions raises a
ValueError carrying the layer name and both shapes. -/
def finalize_check_shapes (layer_name : String) :
    List (List Int × List Int) → Except (String × List Int × List Int) Unit
  | [] => Except.ok ()
  | (existing, proposed) :: rest =>
    if is_a_shape_of existing (some proposed) || is_a_shape_of proposed (some existing) then
      finalize_check_shapes layer_name rest
    else Except.error (layer_name, existing, proposed)

/-- C6 counterexample: the existing annotation [2, 3] against the propagated
shape [-1, 3] is a one-way mismatch - compatibility fails in the direction
is_a_shape_of [-1, 3] [2, 3] - yet merge-mode finalization accepts the
pair, because compatibility in a single direction suffices. -/
theorem c6_one_way_mismatch_not_fatal :
    is_a_shape_of [-1, 3] (some [2, 3]) = false
    ∧ is_a_shape_of [2, 3] (some [-1, 3]) = true
    ∧ finalize_check_shapes "layer" [([2, 3], [-1, 3])] = Except.ok () := by
  decide

/-- C6 (amended): in merge mode, finalization checks every already-present
tensor shape annotation of a layer against the propagated shape, and a
mismatch in BOTH directions of the compatibility check is fatal - the check
passes when either direction holds - raising an error that reports the
layer name and both shapes. -/
theorem c6_merge_check_two_way (layer_name : String)
    (pairs : List (List Int × List Int)) :
    (finalize_check_shapes layer_name pairs = Except.ok () ↔
      ∀ p ∈ pairs,
        (is_a_shape_of p.1 (some p.2) || is_a_shape_of p.2 (some p.1)) = true)
    ∧ (∀ e, finalize_check_shapes layer_name pairs = Except.error e →
        e.1 = layer_name
        ∧ (e.2.1, e.2.2) ∈ pairs
        ∧ (is_a_shape_of e.2.1 (some e.2.2) || is_a_shape_of e.2.2 (some e.2.1)) = false) := by
  induction pairs with
  | nil =>
    refine ⟨by simp [finalize_check_shapes], ?_⟩
    intro e he
    simp [finalize_check_shapes] at he
  | cons p rest ih =>
    obtain ⟨existing, proposed⟩ := p
    by_cases hc :
        (is_a_shape_of existing (some proposed) || is_a_shape_of proposed (some existing)) = true
    · constructor
      · rw [show finalize_check_shapes layer_name ((existing, proposed) :: rest)
            = finalize_check_shapes layer_name rest by simp [finalize_check_shapes, hc]]
        rw [ih.1]
        constructor
        · intro hall q hq
          rcases List.mem_cons.mp hq with h1 | h2
          · rw [h1]; exact hc
          · exact hall q h2
        · intro hall q hq
          exact hall q (List.mem_cons_of_mem _ hq)
      · intro e he
        rw [show finalize_check_shapes layer_name ((existing, proposed) :: rest)
            = finalize_check_shapes layer_name rest by simp [finalize_check_shapes, hc]] at he
        obtain ⟨h1, h2, h3⟩ := ih.2 e he
        exact ⟨h1, List.mem_cons_of_mem _ h2, h3⟩
    · have herr : finalize_check_shapes layer_name ((existing, proposed) :: rest)
          = Except.error (layer_name, existing, proposed) := by
        simp only [finalize_check_shapes]
        rw [if_neg (by simpa using hc)]
      constructor
      · rw [herr]
        constructor
        · intro h; cases h
        · intro hall
          have := hall (existing, proposed) (List.mem_cons_self _ _)
          simp only at this
          exact absurd this hc
      · intro e he
        rw [herr] at he
        cases he
        refine ⟨rfl, List.mem_cons_self _ _, ?_⟩
        simpa using hc

/-- C6 witness: the two-way theorem applied to the single pair
([1, 2], [3, 2]), which is incompatible in both directions, extracting the
error that names the layer and both shapes. -/
theorem c6_merge_check_two_way_witness :
    (("L", ([1, 2] : List Int), ([3, 2] : List Int)).1 = "L"
    ∧ ((("L", ([1, 2] : List Int), ([3, 2] : List Int)).2.1,
        ("L", ([1, 2] : List Int), ([3, 2] : List Int)).2.2) ∈ [(([1, 2] : List Int), ([3, 2] : List Int))])
    ∧ (is_a_shape_of ("L", ([1, 2] : List Int), ([3, 2] : List Int)).2.1
          (some ("L", ([1, 2] : List Int), ([3, 2] : List Int)).2.2)
        || is_a_shape_of ("L", ([1, 2] : List Int), ([3, 2] : List Int)).2.2
          (some ("L", ([1, 2] : List Int), ([3, 2] : List Int)).2.1)) = false) :=
  (c6_merge_check_two_way "L" [([1, 2], [3, 2])]).2 ("L", [1, 2], [3, 2]) (by decide)

/-- Embedding of _split_nd in shapes.py under Python 3 semantics: any input
count other than one raises NotImplementedError; the single input shape is
copied, the dimension at the split axis is divided by the split count with
true division (the Python result is a float, modelled here with an exact
rational), and only a zero quotient is rejected; the zero divisor
(ZeroDivisionError in Python) and an out-of-range axis (IndexError) are
errors too.  On success the quotient shape is replicated num_splits
times. -/
def split_nd (input_shapes : List (List Int)) (axis : Nat) (num_splits : Int) :
    Option (List (List ℚ)) :=
  match input_shapes with
  | [s] =>
    if axis < s.length then
      if num_splits = 0 then none
      else
        let d : ℚ := ((s.getD axis 0 : Int) : ℚ) / ((num_splits : Int) : ℚ)
        let output_shape : List ℚ := (s.map (fun v => ((v : Int) : ℚ))).set axis d
        if d = 0 then none else some (List.replicate num_splits.toNat output_shape)
    else none
  | _ => none

/-- C5 counterexample: splitting the shape [7, 4] into 3 parts along axis 0
succeeds even though 7 is not a multiple of 3 - the code performs the
division without any divisibility check and rejects only a zero result,
so no divide-evenly requirement exists. -/
theorem c5_split_no_divisibility_check :
    split_nd [[7, 4]] 0 3 = some (List.replicate 3 [7 / 3, 4])
    ∧ ¬ ((3 : Int) ∣ 7) := by
  constructor
  · simp [split_nd]
  · decide

/-- C5 (amended): the static split shape rule divides the split-axis
dimension by the split count without checking divisibility and rejects
only a zero-valued quotient: for a single input shape s, an in-range axis a
and a nonzero count n, splitting succeeds exactly when s[a] is nonzero, in
which case it returns n copies of s with s[a] replaced by the exact
quotient s[a] / n (integral only when n divides s[a]); in particular
splitting [6, 4] into 3 parts along axis 0 yields three [2, 4] shapes. -/
theorem c5_split_rejects_only_zero (s : List Int) (axis : Nat) (n : Int)
    (haxis : axis < s.length) (hn : n ≠ 0) :
    ((split_nd [s] axis n).isSome = true ↔ s.getD axis 0 ≠ 0)
    ∧ (s.getD axis 0 ≠ 0 →
        split_nd [s] axis n
          = some (List.replicate n.toNat
              ((s.map (fun v => ((v : Int) : ℚ))).set axis
                (((s.getD axis 0 : Int) : ℚ) / ((n : Int) : ℚ)))))
    ∧ split_nd [[6, 4]] 0 3 = some [[2, 4], [2, 4], [2, 4]] := by
  have hd : (((s.getD axis 0 : Int) : ℚ) / ((n : Int) : ℚ) = 0) ↔ s.getD axis 0 = 0 := by
    rw [div_eq_zero_iff]
    constructor
    · rintro (h1 | h2)
      · exact_mod_cast h1
      · exact absurd (by exact_mod_cast h2) hn
    · intro h1
      left
      exact_mod_cast h1
  refine ⟨?_, ?_, by simp [split_nd]; norm_num⟩
  · simp only [split_nd, if_pos haxis, if_neg hn]
    by_cases hz : s.getD axis 0 = 0
    · rw [if_pos (hd.mpr hz)]
      simp only [Option.isSome_none, Bool.false_eq_true, false_iff, ne_eq, not_not]
      exact hz
    · rw [if_neg (fun he => hz (hd.mp he))]
      simp only [Option.isSome_some, true_iff, ne_eq]
      exact hz
  · intro hz
    simp only [split_nd, if_pos haxis, if_neg hn]
    rw [if_neg (fun he => hz (hd.mp he))]

/-- C5 witness: the amended theorem applied to shape [6, 4], axis 0 and
split count 3. -/
theorem c5_split_rejects_only_zero_witness :
    ((split_nd [[6, 4]] 0 3).isSome = true ↔ ([6, 4] : List Int).getD 0 0 ≠ 0)
    ∧ (([6, 4] : List Int).getD 0 0 ≠ 0 →
        split_nd [[6, 4]] 0 3
          = some (List.replicate (3 : Int).toNat
              ((([6, 4] : List Int).map (fun v => ((v : Int) : ℚ))).set 0
                (((([6, 4] : List Int).getD 0 0 : Int) : ℚ) / (((3 : Int) : Int) : ℚ)))))
    ∧ split_nd [[6, 4]] 0 3 = some [[2, 4], [2, 4], [2, 4]] :=
  c5_split_rejects_only_zero [6, 4] 0 3 (by decide) (by decide)

/-- Embedding of the binding registration in _convert_make_tuple
(ssa_converter.py): a node name already present in op_tensor_map raises a
ValueError before anything is written; otherwise the resolved input
tensors are bound to the node name. -/
def convert_make_tuple_binding (op_tensor_map : List (String × List String))
    (node_name : String) (input_tensors : List String) :
    Except String (List (String × List String)) :=
  if dict_contains op_tensor_map node_name then
    Except.error ("make_tuple node " ++ node_name ++ " should not be visited twice.")
  else Except.ok (dict_set op_tensor_map node_name input_tensors)

/-- Embedding of the binding registration in _convert_split
(ssa_converter.py): like make_tuple, a duplicate node name raises before
the generated output names are bound. -/
def convert_split_binding (op_tensor_map : List (String × List String))
    (node_name : String) (output_names : List String) :
    Except String (List (String × List String)) :=
  if dict_contains op_tensor_map node_name then
    Except.error ("[SSAConverter] split node " ++ node_name ++ " should not be visited twice.")
  else Except.ok (dict_set op_tensor_map node_name output_names)

/-- Embedding of the binding assignment in _convert_get_tuple
(ssa_converter.py): op_tensor_map[node.name] is assigned the single
selected input name with no duplicate check; none models the IndexError
on an out-of-range tuple index. -/
def convert_get_tuple_binding (op_tensor_map : List (String × List String))
    (node_name : String) (input_names : List String) (index : Nat) :
    Option (List (String × List String)) :=
  if index < input_names.length then
    some (dict_set op_tensor_map node_name [input_names.getD index ""])
  else none

/-- Embedding of the binding assignment in _convert_unpack
(ssa_converter.py): op_tensor_map[node.name] = output_names, with no
duplicate check. -/
def convert_unpack_binding (op_tensor_map : List (String × List String))
    (node_name : String) (output_names : List String) : List (String × List String) :=
  dict_set op_tensor_map node_name output_names

/-- Embedding of the binding assignment at the top of _convert_while
(ssa_converter.py): op_tensor_map[node.name] = input_names, with no
duplicate check. -/
def convert_while_binding (op_tensor_map : List (String × List String))
    (node_name : String) (input_names : List String) : List (String × List String) :=
  dict_set op_tensor_map node_name input_names

/-- C4 counterexample: a get_tuple node whose name already has a binding
does not raise - it silently overwrites the existing binding [a] of x with
[b]. -/
theorem c4_get_tuple_overwrites_silently :
    dict_get [("x", ["a"])] "x" = some ["a"]
    ∧ convert_get_tuple_binding [("x", ["a"])] "x" ["b"] 0 = some [("x", ["b"])]
    ∧ dict_get [("x", ["b"])] "x" = some ["b"] := by
  decide

/-- C4 (amended): of the binding-creating operations, only tuple
aggregation (make_tuple) and N-way split raise an error when the node name
is already present in the binding map; tuple splitting (get_tuple), unpack
and loop lowering register their bindings unconditionally, silently
overwriting any existing binding. -/
theorem c4_binding_registration (m : List (String × List String)) (name : String)
    (vals ins outs : List String) (idx : Nat) (hidx : idx < ins.length) :
    ((∃ m2, convert_make_tuple_binding m name vals = Except.ok m2)
      ↔ dict_contains m name = false)
    ∧ ((∃ m2, convert_split_binding m name outs = Except.ok m2)
      ↔ dict_contains m name = false)
    ∧ dict_get (convert_unpack_binding m name outs) name = some outs
    ∧ dict_get (convert_while_binding m name ins) name = some ins
    ∧ (∃ m2, convert_get_tuple_binding m name ins idx = some m2
        ∧ dict_get m2 name = some [ins.getD idx ""]) := by
  refine ⟨?_, ?_, ?_, ?_, ?_⟩
  · by_cases h : dict_contains m name
    · simp [convert_make_tuple_binding, h]
    · simp [convert_make_tuple_binding, h]
  · by_cases h : dict_contains m name
    · simp [convert_split_binding, h]
    · simp [convert_split_binding, h]
  · exact dict_get_set_self _ _ _
  · exact dict_get_set_self _ _ _
  · refine ⟨dict_set m name [ins.getD idx ""], ?_, dict_get_set_self _ _ _⟩
    simp [convert_get_tuple_binding, hidx]

/-- C4 witness: the amended theorem applied to a one-entry binding map and
the index 0 of a one-element input list. -/
theorem c4_binding_registration_witness :
    ((∃ m2, convert_make_tuple_binding [("x", ["a"])] "x" ["v"] = Except.ok m2)
      ↔ dict_contains [("x", ["a"])] "x" = false)
    ∧ ((∃ m2, convert_split_binding [("x", ["a"])] "x" ["o"] = Except.ok m2)
      ↔ dict_contains [("x", ["a"])] "x" = false)
    ∧ dict_get (convert_unpack_binding [("x", ["a"])] "x" ["o"]) "x" = some ["o"]
    ∧ dict_get (convert_while_binding [("x", ["a"])] "x" ["b"]) "x" = some ["b"]
    ∧ (∃ m2, convert_get_tuple_binding [("x", ["a"])] "x" ["b"] 0 = some m2
        ∧ dict_get m2 "x" = some [(["b"] : List String).getD 0 ""]) :=
  c4_binding_registration [("x", ["a"])] "x" ["v"] ["b"] ["o"] 0 (by decide)

/-- Target copy operator emitted by builder.add_copy inside a lowered loop
body: name copy_src_dst, input src, output dst. -/
structure CopyOp where
  name : String
  input : String
  output : String
deriving DecidableEq

/-- Embedding of the copy-insertion loop at the end of _convert_while
(ssa_converter.py): for src, dst in zip(loop_var_names, input_names), a
position with equal names is skipped and a differing position emits one
copy operator from src to dst. -/
def emit_loop_copies : List String → List String → List CopyOp
  | src :: srcs, dst :: dsts =>
    if src = dst then emit_loop_copies srcs dsts
    else CopyOp.mk ("copy_" ++ src ++ "_" ++ dst) src dst :: emit_loop_copies srcs dsts
  | _, _ => []

/-- Embedding of the tail of _convert_while (ssa_converter.py): the body's
terminal make_tuple binding gives loop_var_names, the assert requires it to
have the same length as the loop's input_names (none models the raised
AssertionError), and then the copy operators are emitted. -/
def convert_while_copies (loop_var_names input_names : List String) :
    Option (List CopyOp) :=
  if loop_var_names.length = input_names.length then
    some (emit_loop_copies loop_var_names input_names)
  else none

theorem emit_loop_copies_eq (vars : List String) :
    ∀ ins : List String,
      emit_loop_copies vars ins
        = ((vars.zip ins).filter (fun p => p.1 != p.2)).map
            (fun p => CopyOp.mk ("copy_" ++ p.1 ++ "_" ++ p.2) p.1 p.2) := by
  induction vars with
  | nil => intro ins; cases ins <;> simp [emit_loop_copies]
  | cons src srcs ih =>
    intro ins
    cases ins with
    | nil => simp [emit_loop_copies]
    | cons dst dsts =>
      by_cases h : src = dst
      · simp [emit_loop_copies, h, ih]
      · simp [emit_loop_copies, h, ih]

theorem emit_loop_copies_mem_of_ne (vars : List String) :
    ∀ (ins : List String) (i : Nat), i < vars.length → i < ins.length →
      vars.getD i "" ≠ ins.getD i "" →
      CopyOp.mk ("copy_" ++ vars.getD i "" ++ "_" ++ ins.getD i "")
          (vars.getD i "") (ins.getD i "") ∈ emit_loop_copies vars ins := by
  induction vars with
  | nil => intro ins i hi _ _; simp at hi
  | cons src srcs ih =>
    intro ins i hi hi2 hne
    cases ins with
    | nil => simp at hi2
    | cons dst dsts =>
      cases i with
      | zero =>
        simp only [List.getD_cons_zero] at hne
        simp only [emit_loop_copies, if_neg hne, List.getD_cons_zero]
        exact List.mem_cons_self _ _
      | succ n =>
        simp only [List.getD_cons_succ] at hne ⊢
        have hmem := ih dsts n (by simpa using hi) (by simpa using hi2) hne
        by_cases h : src = dst
        · simpa [emit_loop_copies, h] using hmem
        · simp only [emit_loop_copies, if_neg h]
          exact List.mem_cons_of_mem _ hmem

/-- C2: when a while-loop node is successfully lowered, the body-output name
list has the same length as the loop input-name list; every emitted copy
operator joins two differing names (so positions with equal names get no
copy); every position with differing names contributes the copy operator
mapping the body-output name to the loop input name; and the number of
emitted copies equals the number of differing positions, so each differing
position gets exactly one copy. -/
theorem c2_while_copy_invariant (loop_var_names input_names : List String)
    (cs : List CopyOp)
    (h : convert_while_copies loop_var_names input_names = some cs) :
    loop_var_names.length = input_names.length
    ∧ (∀ c ∈ cs, c.input ≠ c.output)
    ∧ (∀ i, i < loop_var_names.length →
        loop_var_names.getD i "" ≠ input_names.getD i "" →
        CopyOp.mk ("copy_" ++ loop_var_names.getD i "" ++ "_" ++ input_names.getD i "")
            (loop_var_names.getD i "") (input_names.getD i "") ∈ cs)
    ∧ cs.length
        = ((loop_var_names.zip input_names).filter (fun p => p.1 != p.2)).length := by
  have hlen : loop_var_names.length = input_names.length := by
    by_cases hl : loop_var_names.length = input_names.length
    · exact hl
    · simp [convert_while_copies, hl] at h
  have hcs : cs = emit_loop_copies loop_var_names input_names := by
    simp [convert_while_copies, hlen] at h
    exact h.symm
  refine ⟨hlen, ?_, ?_, ?_⟩
  · intro c hc
    rw [hcs, emit_loop_copies_eq] at hc
    obtain ⟨p, hp, hpc⟩ := List.mem_map.mp hc
    have hne := List.of_mem_filter hp
    rw [← hpc]
    simpa using hne
  · intro i hi hne
    rw [hcs]
    exact emit_loop_copies_mem_of_ne loop_var_names input_names i hi (hlen ▸ hi) hne
  · rw [hcs, emit_loop_copies_eq, List.length_map]

/-- C2 witness: the invariant applied to the lowered loop whose body
produces [i, acc] for the loop inputs [i, carry]: one copy operator from
acc to carry is emitted. -/
theorem c2_while_copy_invariant_witness :
    (["i", "acc"] : List String).length = (["i", "carry"] : List String).length
    ∧ (∀ c ∈ [CopyOp.mk "copy_acc_carry" "acc" "carry"], c.input ≠ c.output)
    ∧ (∀ i, i < (["i", "acc"] : List String).length →
        (["i", "acc"] : List String).getD i "" ≠ (["i", "carry"] : List String).getD i "" →
        CopyOp.mk ("copy_" ++ (["i", "acc"] : List String).getD i ""
              ++ "_" ++ (["i", "carry"] : List String).getD i "")
            ((["i", "acc"] : List String).getD i "")
            ((["i", "carry"] : List String).getD i "")
          ∈ [CopyOp.mk "copy_acc_carry" "acc" "carry"])
    ∧ ([CopyOp.mk "copy_acc_carry" "acc" "carry"] : List CopyOp).length
        = (((["i", "acc"] : List String).zip (["i", "carry"] : List String)).filter
            (fun p => p.1 != p.2)).length :=
  c2_while_copy_invariant ["i", "acc"] ["i", "carry"]
    [CopyOp.mk "copy_acc_carry" "acc" "carry"] (by decide)

/-- Embedding of the per-input validation in SSAConverter.__init__
(ssa_converter.py).  A top-level graph input carries an optional shape
(None when the node datatype has no static shape).  With the inputs
argument omitted, a missing or non-static shape raises, asking the caller
to provide the input.  With the inputs argument given, the name must be
present there, the supplied shape must be static, and it must be
compatible with the shape recorded on the node; a rank-0 supplied shape is
turned into the 1-element shape [1]. -/
def check_top_input (inputs : Option (List (String × List Int)))
    (name : String) (shape : Option (List Int)) : Except String (List Int) :=
  match inputs with
  | none =>
    match shape with
    | none =>
      Except.error ("nnssa input " ++ name
        ++ " has non-static shape, please provide in argument inputs")
    | some s =>
      if is_static_shape s then Except.ok s
      else
        Except.error ("nnssa input " ++ name
          ++ " has non-static shape, please provide in argument inputs")
  | some ins =>
    match dict_get ins name with
    | none =>
      Except.error ("Input " ++ name
        ++ " is required by SSAConverter, but not passed in argument inputs")
    | some given =>
      if is_static_shape given then
        if is_a_shape_of given shape then
          Except.ok (if given.length = 0 then [1] else given)
        else
          Except.error ("Input " ++ name ++ " expects a shape compatible to the nnssa shape")
      else Except.error ("Supplied input " ++ name ++ " has non-static shape")

/-- Embedding of the loop over top_input_names in SSAConverter.__init__:
the first failing input aborts the whole conversion, otherwise the list of
resolved static input shapes is collected in order. -/
def check_top_inputs (inputs : Option (List (String × List Int))) :
    List (String × Option (List Int)) → Except String (List (List Int))
  | [] => Except.ok []
  | (name, shape) :: rest =>
    match check_top_input inputs name shape with
    | Except.error e => Except.error e
    | Except.ok s =>
      match check_top_inputs inputs rest with
      | Except.error e => Except.error e
      | Except.ok ss => Except.ok (s :: ss)

/-- Embedding of the outputs validation in SSAConverter.__init__: every
name in the explicit outputs argument must be one of the declared
top-level output names of the source graph. -/
def check_outputs (top_output_names : List String) :
    List String → Except String Unit
  | [] => Except.ok ()
  | name :: rest =>
    if top_output_names.contains name then check_outputs top_output_names rest
    else Except.error ("Output " ++ name ++ " is not a nnssa output.")

/-- C8: with the explicit inputs argument omitted, the entry-point input
validation succeeds exactly when every top-level graph input carries a
shape with every dimension positive, and otherwise conversion fails; and
with the explicit outputs argument provided, the output validation
succeeds exactly when every named output is among the declared top-level
outputs of the source graph. -/
theorem c8_convert_entry_checks (graph_inputs : List (String × Option (List Int)))
    (outs top_names : List String) :
    ((∃ l, check_top_inputs none graph_inputs = Except.ok l) ↔
      ∀ p ∈ graph_inputs, ∃ s, p.2 = some s ∧ is_static_shape s = true)
    ∧ (check_outputs top_names outs = Except.ok () ↔
      ∀ n ∈ outs, top_names.contains n = true) := by
  constructor
  · induction graph_inputs with
    | nil => simp [check_top_inputs]
    | cons p rest ih =>
      obtain ⟨name, shape⟩ := p
      cases shape with
      | none =>
        constructor
        · rintro ⟨l, hl⟩
          simp [check_top_inputs, check_top_input] at hl
        · intro hall
          obtain ⟨s, hs, _⟩ := hall (name, none) (List.mem_cons_self _ _)
          cases hs
      | some s =>
        by_cases hs : is_static_shape s = true
        · constructor
          · rintro ⟨l, hl⟩
            intro q hq
            simp only [check_top_inputs, check_top_input, hs, if_true] at hl
            rcases List.mem_cons.mp hq with h1 | h2
            · exact ⟨s, by rw [h1], hs⟩
            · rcases hrest : check_top_inputs none rest with e | ll
              · simp [hrest] at hl
              · exact ih.mp ⟨ll, hrest⟩ q h2
          · intro hall
            obtain ⟨ll, hll⟩ := ih.mpr (fun q hq => hall q (List.mem_cons_of_mem _ hq))
            refine ⟨s :: ll, ?_⟩
            simp [check_top_inputs, check_top_input, hs, hll]
        · constructor
          · rintro ⟨l, hl⟩
            simp [check_top_inputs, check_top_input, hs] at hl
          · intro hall
            obtain ⟨s2, hs2, hstat⟩ := hall (name, some s) (List.mem_cons_self _ _)
            cases hs2
            exact absurd hstat hs
  · induction outs with
    | nil => simp [check_outputs]
    | cons name rest ih =>
      by_cases hn : top_names.contains name = true
      · have hstep : check_outputs top_names (name :: rest) = check_outputs top_names rest := by
          have hmem : name ∈ top_names := by simpa using hn
          simp [check_outputs, hmem]
        rw [hstep, ih]
        constructor
        · intro hall q hq
          rcases List.mem_cons.mp hq with h1 | h2
          · rw [h1]; exact hn
          · exact hall q h2
        · intro hall q hq
          exact hall q (List.mem_cons_of_mem _ hq)
      · have hstep : check_outputs top_names (name :: rest)
            = Except.error ("Output " ++ name ++ " is not a nnssa output.") := by
          have hmem : name ∉ top_names := by simpa using hn
          simp [check_outputs, hmem]
        rw [hstep]
        constructor
        · intro hl; cases hl
        · intro hall
          exact absurd (hall name (List.mem_cons_self _ _)) hn

/-- Tags naming the distinct shape-inference functions of shapes.py that
the layer registry dispatches to. -/
inductive ShapeRule where
  | transpose | get_shape | fill_dynamic | slice_static | squeeze
  | range_static | range_dynamic | load_constant | load_constant_nd
  | gather | scatter | less_than | logical_and | add | concat_nd
  | inner_product | identity | copy | expand_dims | stack_nd
  | add_broadcastable | conv2d | reshape_static | embedding_nd
  | reduce | argmax | reduce_mean | reduce_sum | split_nd | batched_mat_mul
deriving DecidableEq

/-- Embedding of _LAYER_REGISTRY in shapes.py: the fixed dispatch table
from CoreML layer kind to its shape-inference function; none models the
unsupported-layer error raised by _get_translator_function. -/
def layer_registry : String → Option ShapeRule
  | "transpose" => some ShapeRule.transpose
  | "getShape" => some ShapeRule.get_shape
  | "fillDynamic" => some ShapeRule.fill_dynamic
  | "sliceStatic" => some ShapeRule.slice_static
  | "squeeze" => some ShapeRule.squeeze
  | "rangeStatic" => some ShapeRule.range_static
  | "rangeDynamic" => some ShapeRule.range_dynamic
  | "loadConstant" => some ShapeRule.load_constant
  | "loadConstantND" => some ShapeRule.load_constant_nd
  | "gather" => some ShapeRule.gather
  | "scatter" => some ShapeRule.scatter
  | "lessThan" => some ShapeRule.less_than
  | "notEqual" => some ShapeRule.less_than
  | "logicalAnd" => some ShapeRule.logical_and
  | "add" => some ShapeRule.add
  | "multiply" => some ShapeRule.add
  | "concatND" => some ShapeRule.concat_nd
  | "innerProduct" => some ShapeRule.inner_product
  | "activation" => some ShapeRule.identity
  | "reverse" => some ShapeRule.identity
  | "copy" => some ShapeRule.copy
  | "expandDims" => some ShapeRule.expand_dims
  | "stackND" => some ShapeRule.stack_nd
  | "addBroadcastable" => some ShapeRule.add_broadcastable
  | "subtractBroadcastable" => some ShapeRule.add_broadcastable
  | "conv2d" => some ShapeRule.conv2d
  | "multiplyBroadcastable" => some ShapeRule.add_broadcastable
  | "reshapeStatic" => some ShapeRule.reshape_static
  | "embeddingND" => some ShapeRule.embedding_nd
  | "softmax" => some ShapeRule.identity
  | "softmaxND" => some ShapeRule.identity
  | "unary" => some ShapeRule.identity
  | "bias" => some ShapeRule.add
  | "max" => some ShapeRule.add
  | "min" => some ShapeRule.add
  | "reduce" => some ShapeRule.reduce
  | "argMax" => some ShapeRule.argmax
  | "reduceMean" => some ShapeRule.reduce_mean
  | "reduceSum" => some ShapeRule.reduce_sum
  | "splitND" => some ShapeRule.split_nd
  | "batchedMatmul" => some ShapeRule.batched_mat_mul
  | _ => none

/-- Embedding of _add in shapes.py, the shape function registered for the
add, multiply, bias, max and min layer kinds: with two inputs it returns
BOTH input shapes, each left-padded with 1 up to the larger rank - it does
not compute a broadcast result; with one input it returns the input shapes
unchanged; any other input count raises ValueError. -/
def add_shapes : List (List Int) → Except String (List (List Int))
  | [s1, s2] =>
    Except.ok [List.replicate (max s1.length s2.length - s1.length) 1 ++ s1,
      List.replicate (max s1.length s2.length - s2.length) 1 ++ s2]
  | [s] => Except.ok [s]
  | _ => Except.error "[Shaper] Expects _add layers having either 1 or 2 inputs"

/-- Embedding of the output-registration loop in propagate_single_layer
(shapes.py) over all of a layer's output blobs: blob k receives
output_shapes[k] via register_output_blob; none models both a unification
failure and the IndexError when the layer has more outputs than the shape
function returned shapes. -/
def register_outputs (shapes : List (String × List Int)) :
    List String → List (List Int) → Option (List (String × List Int))
  | [], _ => some shapes
  | blob :: blobs, out_shape :: out_shapes =>
    match register_output_blob shapes blob out_shape with
    | none => none
    | some shapes2 => register_outputs shapes2 blobs out_shapes
  | _ :: _, [] => none

/-- C10: the shape registry maps the add, multiply, bias, max and min layer
kinds to the _add rule; with two inputs _add returns the two input shapes
each left-padded with 1 to the larger rank, not a broadcast; the first
returned shape does not depend on the dimension values of the second input
(only on its rank); a single-output layer of these kinds registers the
padded first input shape as its output shape in the shape table; with one
input the shape passes through unchanged; and any other input count is an
error. -/
theorem c10_add_family_no_broadcast (s1 s2 s2b : List Int)
    (table : List (String × List Int)) (blob : String)
    (hlen : s2b.length = s2.length) (hfresh : dict_get table blob = none) :
    (layer_registry "add" = some ShapeRule.add
      ∧ layer_registry "multiply" = some ShapeRule.add
      ∧ layer_registry "bias" = some ShapeRule.add
      ∧ layer_registry "max" = some ShapeRule.add
      ∧ layer_registry "min" = some ShapeRule.add)
    ∧ add_shapes [s1, s2]
        = Except.ok [List.replicate (max s1.length s2.length - s1.length) 1 ++ s1,
            List.replicate (max s1.length s2.length - s2.length) 1 ++ s2]
    ∧ (add_shapes [s1, s2]).toOption.map (fun l => l.getD 0 [])
        = (add_shapes [s1, s2b]).toOption.map (fun l => l.getD 0 [])
    ∧ add_shapes [s1] = Except.ok [s1]
    ∧ (∀ shapes : List (List Int), shapes.length ≠ 1 → shapes.length ≠ 2 →
        add_shapes shapes
          = Except.error "[Shaper] Expects _add layers having either 1 or 2 inputs")
    ∧ (∀ l, add_shapes [s1, s2] = Except.ok l →
        register_outputs table [blob] l
          = some (dict_set table blob
              (List.replicate (max s1.length s2.length - s1.length) 1 ++ s1))) := by
  refine ⟨⟨rfl, rfl, rfl, rfl, rfl⟩, rfl, ?_, rfl, ?_, ?_⟩
  · simp [add_shapes, hlen, Except.toOption]
  · intro shapes h1 h2
    match shapes with
    | [] => rfl
    | [s] => simp at h1
    | [s, t] => simp at h2
    | s :: t :: u :: rest => rfl
  · intro l hl
    rw [show l = [List.replicate (max s1.length s2.length - s1.length) 1 ++ s1,
        List.replicate (max s1.length s2.length - s2.length) 1 ++ s2] by
      cases hl; rfl]
    simp [register_outputs, register_output_blob, hfresh]

/-- C10 witness: the theorem applied to the input shapes [3, 4] and
[2, 3, 4] (with [9, 9, 9] the same-rank variation of the second input) and
a fresh output blob in an empty shape table. -/
theorem c10_add_family_no_broadcast_witness :
    (layer_registry "add" = some ShapeRule.add
      ∧ layer_registry "multiply" = some ShapeRule.add
      ∧ layer_registry "bias" = some ShapeRule.add
      ∧ layer_registry "max" = some ShapeRule.add
      ∧ layer_registry "min" = some ShapeRule.add)
    ∧ add_shapes [[3, 4], [2, 3, 4]]
        = Except.ok [List.replicate (max ([3, 4] : List Int).length ([2, 3, 4] : List Int).length
              - ([3, 4] : List Int).length) 1 ++ [3, 4],
            List.replicate (max ([3, 4] : List Int).length ([2, 3, 4] : List Int).length
              - ([2, 3, 4] : List Int).length) 1 ++ [2, 3, 4]]
    ∧ (add_shapes [[3, 4], [2, 3, 4]]).toOption.map (fun l => l.getD 0 [])
        = (add_shapes [[3, 4], [9, 9, 9]]).toOption.map (fun l => l.getD 0 [])
    ∧ add_shapes [[3, 4]] = Except.ok [[3, 4]]
    ∧ (∀ shapes : List (List Int), shapes.length ≠ 1 → shapes.length ≠ 2 →
        add_shapes shapes
          = Except.error "[Shaper] Expects _add layers having either 1 or 2 inputs")
    ∧ (∀ l, add_shapes [[3, 4], [2, 3, 4]] = Except.ok l →
        register_outputs [] ["out"] l
          = some (dict_set [] "out"
              (List.replicate (max ([3, 4] : List Int).length ([2, 3, 4] : List Int).length
                - ([3, 4] : List Int).length) 1 ++ [3, 4]))) :=
  c10_add_family_no_broadcast [3, 4] [2, 3, 4] [9, 9, 9] [] "out" (by decide) (by decide)
